import Mathlib

/-!
# Verification of the spector legacy-format readers

Shallow embedding of the `spector` package (bit/byte helpers, the generic
binary block reader, the per-format layout tables and the per-format
post-processing of `read_fts1`, `read_bruker`, `read_spec` and the
Rinsland text-header reader), together with theorems settling the claims
about its specification.

Machine bytes are modelled as natural numbers below 256; Python's signed
struct codes are decoded to `Int` via two's complement; Python floats and
exact float arithmetic are modelled over `ℚ` (the IEEE bit patterns of
`f`/`d` struct fields are kept as raw little-endian words, uninterpreted);
fallible operations return `Option` or `Except`.
-/

namespace Spector

/-! ## Bit/byte helpers (`spector/utils/io.py`) -/

/-- `bytes_2_bits(bytes_list, swap=False)`: for each byte emit its 8 bits
least-significant-bit first (`bits8 = [(byte >> i) & 1 for i in range(8)]`),
reversed per byte when `swap` is true, concatenating the per-byte lists. -/
def bytes_2_bits (bytesList : List ℕ) (swap : Bool := false) : List ℕ :=
  bytesList.foldl
    (fun bitsList byte =>
      let bits8 := (List.range 8).map (fun i => (byte >>> i) % 2)
      bitsList ++ (if swap then bits8.reverse else bits8))
    []

/-- `bits_2_int(bits_list, swap=False)`: read a 0/1 list as a big-endian
binary numeral (`int(''.join(str(b) for b in bits), base=2)`), after
reversing the whole sequence when `swap` is true. -/
def bits_2_int (bitsList : List ℕ) (swap : Bool := false) : ℕ :=
  (if swap then bitsList.reverse else bitsList).foldl (fun acc b => 2 * acc + b) 0

/-- `intdec_2_float(vi, vd) = vi + vd / 2.**24` (exact-rational model). -/
def intdec_2_float (vi vd : ℤ) : ℚ :=
  (vi : ℚ) + (vd : ℚ) / (2 ^ 24 : ℚ)

/-- The 8 bits of one byte, least-significant first. -/
def byteBitsLsb (byte : ℕ) : List ℕ :=
  (List.range 8).map (fun i => (byte >>> i) % 2)

theorem bytes_2_bits_cons (b : ℕ) (bs : List ℕ) (swap : Bool) :
    bytes_2_bits (b :: bs) swap =
      (if swap then (byteBitsLsb b).reverse else byteBitsLsb b) ++ bytes_2_bits bs swap := by
  have step : ∀ (l : List ℕ) (acc : List ℕ),
      l.foldl (fun bitsList byte =>
        bitsList ++ (if swap then ((List.range 8).map
          (fun i => (byte >>> i) % 2)).reverse
          else (List.range 8).map (fun i => (byte >>> i) % 2))) acc =
      acc ++ l.foldl (fun bitsList byte =>
        bitsList ++ (if swap then ((List.range 8).map
          (fun i => (byte >>> i) % 2)).reverse
          else (List.range 8).map (fun i => (byte >>> i) % 2))) [] := by
    intro l
    induction l with
    | nil => intro acc; simp
    | cons x xs ih =>
      intro acc
      simp only [List.foldl_cons]
      rw [ih, ih ([] ++ _)]
      simp [List.append_assoc]
  simp only [bytes_2_bits, List.foldl_cons, byteBitsLsb]
  rw [step]
  simp

theorem bytes_2_bits_nil (swap : Bool) : bytes_2_bits [] swap = [] := rfl

/-- Reassemble one byte from its 8 bits given least-significant first. -/
def bitsLsbToByte (bits : List ℕ) : ℕ :=
  bits.foldr (fun b acc => 2 * acc + b) 0

/-- Split a flat list into consecutive groups of 8. -/
def chunk8 : List ℕ → List (List ℕ)
  | [] => []
  | b0 :: b1 :: b2 :: b3 :: b4 :: b5 :: b6 :: b7 :: rest =>
      [b0, b1, b2, b3, b4, b5, b6, b7] :: chunk8 rest
  | l => [l]

theorem byteBitsLsb_lt_two (byte : ℕ) : ∀ b ∈ byteBitsLsb byte, b < 2 := by
  intro b hb
  simp only [byteBitsLsb, List.mem_map] at hb
  obtain ⟨i, _, rfl⟩ := hb
  exact Nat.mod_lt _ (by norm_num)

theorem bitsLsbToByte_byteBitsLsb (byte : ℕ) (h : byte < 256) :
    bitsLsbToByte (byteBitsLsb byte) = byte := by
  simp only [byteBitsLsb, bitsLsbToByte]
  have : byte = (byte >>> 0) % 2 + 2 * ((byte >>> 1) % 2 + 2 * ((byte >>> 2) % 2 +
      2 * ((byte >>> 3) % 2 + 2 * ((byte >>> 4) % 2 + 2 * ((byte >>> 5) % 2 +
      2 * ((byte >>> 6) % 2 + 2 * ((byte >>> 7) % 2))))))) := by
    simp only [Nat.shiftRight_eq_div_pow]
    omega
  simp [List.range_succ]
  omega

/-! ## Binary block reader (`read_bin_block` in `spector/utils/io.py`)

`struct` format codes used by the layout tables, with standard sizes and
no alignment (all calls use the default `<` little-endian byte order). -/

inductive FCode
  /-- `h`: signed 16-bit integer. -/
  | fh
  /-- `i`: signed 32-bit integer. -/
  | fi
  /-- `f`: IEEE float32; the raw little-endian 32-bit word is kept. -/
  | ff
  /-- `d`: IEEE float64; the raw little-endian 64-bit word is kept. -/
  | fd
  /-- `c`: a single byte, kept as a length-1 bytes object. -/
  | fc
  /-- `ns`: a fixed-length byte string of `n` bytes. -/
  | fs (n : ℕ)
  /-- `nx`: `n` padding bytes, consumed but producing no value. -/
  | fx (n : ℕ)
  deriving DecidableEq

/-- Byte width of one format code (`struct.calcsize` of that code). -/
def fwidth : FCode → ℕ
  | .fh => 2
  | .fi => 4
  | .ff => 4
  | .fd => 8
  | .fc => 1
  | .fs n => n
  | .fx n => n

/-- A decoded binary field value. -/
inductive BVal
  /-- Value of a signed integer field (`h`, `i`). -/
  | int (z : ℤ)
  /-- Raw little-endian word of a float32 field. -/
  | f32 (w : ℕ)
  /-- Raw little-endian word of a float64 field. -/
  | f64 (w : ℕ)
  /-- Raw bytes of a `c` or `ns` field. -/
  | bytes (bs : List ℕ)
  /-- A decoded text value (produced by post-processing, e.g.
  `spec['name'].decode().strip()`). -/
  | str (s : String)
  deriving DecidableEq

/-- A field-layout table: `(name-or-None, format-code)` pairs. -/
abbrev FFmt := List (Option String × FCode)

/-- `struct.calcsize` of the concatenated format string. -/
def calcsize (ffmt : FFmt) : ℕ :=
  (ffmt.map (fun p => fwidth p.2)).sum

/-- Little-endian value of a byte sequence. -/
def leWord (bs : List ℕ) : ℕ :=
  bs.foldr (fun b acc => acc * 256 + b) 0

/-- Two's-complement reading of a 16-bit word. -/
def sign16 (u : ℕ) : ℤ :=
  if u < 2 ^ 15 then (u : ℤ) else (u : ℤ) - 2 ^ 16

/-- Two's-complement reading of a 32-bit word. -/
def sign32 (u : ℕ) : ℤ :=
  if u < 2 ^ 31 then (u : ℤ) else (u : ℤ) - 2 ^ 32

/-- The values produced by `struct.unpack` for a code sequence applied to a
buffer: each non-padding code decodes its slice of the buffer, padding
codes consume bytes and produce nothing. -/
def unpackVals : List FCode → List ℕ → List BVal
  | [], _ => []
  | code :: rest, bs =>
    let w := fwidth code
    let rec' := unpackVals rest (bs.drop w)
    match code with
    | .fh => .int (sign16 (leWord (bs.take w))) :: rec'
    | .fi => .int (sign32 (leWord (bs.take w))) :: rec'
    | .ff => .f32 (leWord (bs.take w)) :: rec'
    | .fd => .f64 (leWord (bs.take w)) :: rec'
    | .fc => .bytes (bs.take w) :: rec'
    | .fs _ => .bytes (bs.take w) :: rec'
    | .fx _ => rec'

/-- The non-`None` field names of a table, in order
(`[k for k, s in ffmt if k is not None]`). -/
def ffmtKeys (ffmt : FFmt) : List String :=
  ffmt.filterMap Prod.fst

/-- An opened binary file: its full content and the read cursor. -/
structure PyFile where
  data : List ℕ
  pos : ℕ
  deriving DecidableEq

/-- The Python exceptions the readers can raise. -/
inductive PyErr
  /-- `struct.error`: the buffer passed to `unpack` has the wrong length. -/
  | structError
  /-- `KeyError`: a dictionary was indexed with an absent key. -/
  | keyError (k : String)
  /-- `ValueError` (the Bruker point-count validation error), carrying the
  spectrum name and the two point counts of the message. -/
  | valueError (name : String) (c1 c2 : BVal)
  /-- `AttributeError`: `re.match` returned `None` and `.groupdict()` was
  called on it. -/
  | matchError
  /-- An exception escaping a field-conversion callable
  (`ValueError` from `int`/`float`/`strptime`, or an invalid
  `datetime.datetime` construction). -/
  | convError
  deriving DecidableEq

/-- `read_bin_block(f, ffmt, pos=None, endian='<')`: seek to `pos` when
given, read `calcsize` bytes, unpack and zip the non-`None` names with the
unpacked values.  A short read makes `struct.unpack` raise. -/
def read_bin_block (f : PyFile) (ffmt : FFmt) (pos : Option ℕ := none) :
    Except PyErr (List (String × BVal) × PyFile) :=
  let nbytes := calcsize ffmt
  let f' : PyFile := match pos with
    | some p => { f with pos := p }
    | none => f
  let buf := (f'.data.drop f'.pos).take nbytes
  if buf.length = nbytes then
    .ok ((ffmtKeys ffmt).zip (unpackVals (ffmt.map Prod.snd) buf),
         { f' with pos := f'.pos + buf.length })
  else
    .error .structError

/-! ## Layout tables (`spector/io/_iofmt.py`) -/

/-- Field layout of the FTS1 2048-byte header. -/
def fts1_header_ffmt : FFmt :=
  [(none, .fx 14),
   (some "source", .fs 10),
   (none, .fx 12),
   (some "dayofyear_begin", .fh),
   (some "year_begin", .fh),
   (some "dayofyear_end", .fh),
   (some "year_end", .fh),
   (some "correction_factor", .ff),
   (none, .fx 222),
   (some "aperture", .ff),
   (some "nb_scan_backward", .fh),
   (none, .fx 2),
   (some "ftype", .fs 12),
   (none, .fx 308),
   (some "n_points", .fi),
   (some "wavenumber_begin", .fd),
   (some "wavenumber_end", .fd),
   (some "opd", .fd),
   (some "sun_elevation", .ff),
   (none, .fx 10),
   (some "sn_ratio", .fh),
   (some "secz", .ff),
   (some "hour_avg", .ff),
   (none, .fx 138),
   (some "name", .fs 12),
   (none, .fx 68),
   (some "nb_scan_forward", .fh)]

/-- Field layout of the Bruker 1280-byte header. -/
def bruker_header_ffmt : FFmt :=
  [(none, .fx 4),
   (some "name", .fs 12),
   (none, .fx 4),
   (some "n_points", .fi),
   (none, .fx 236),
   (some "n_points2", .fi),
   (some "n_scan_forward", .fi),
   (none, .fx 4),
   (some "scale_factor", .fi),
   (some "waven_begin_i", .fi),
   (some "waven_begin_d", .fi),
   (some "waven_end_i", .fi),
   (some "waven_end_d", .fi),
   (some "date_block", .fs 4),
   (some "time_block", .fs 4),
   (none, .fx 16),
   (some "sn_ratio", .fi),
   (none, .fx 36),
   (some "aperture_id", .fi),
   (none, .fx 12),
   (some "beamsplitter_id", .fi),
   (none, .fx 152),
   (some "laserf_i", .fi),
   (some "laserf_d", .fi),
   (none, .fx 32),
   (some "filter_id", .fi),
   (none, .fx 124),
   (some "source_id", .fi),
   (none, .fx 348),
   (some "resolution_i", .fi),
   (some "resolution_d", .fi),
   (none, .fx 92),
   (some "correction_factor", .ff),
   (some "sun_elevation", .ff),
   (none, .fx 124)]

/-- Field layout of the SPEC catalog file header. -/
def spec_header_ffmt : FFmt :=
  [(some "n_records", .fi),
   (some "created_pc", .fs 20),
   (some "modified_pc", .fs 20),
   (some "created_hp1000", .fs 20),
   (some "modified_hp1000", .fs 20),
   (none, .fx 44)]

/-- Field layout of one SPEC catalog record. -/
def spec_record_ffmt : FFmt :=
  [(some "name", .fs 12),
   (some "hour_begin", .ff),
   (some "hour_end", .ff),
   (some "hour_avg", .ff),
   (some "sun_elevation", .ff),
   (some "air_mass", .ff),
   (some "mec_velocity", .fh),
   (some "filter_io_ratio", .fh),
   (some "sampling_frequency", .fi),
   (none, .fx 2),
   (some "n_points_itf", .fh),
   (some "n_points_fft", .fh),
   (some "source_id", .fh),
   (some "detector_id", .fh),
   (some "beamsplitter_id", .fh),
   (some "filter_id", .fh),
   (some "n_scan_forward", .fh),
   (some "n_scan_backward", .fh),
   (some "sn_ratio", .fh),
   (some "aperture", .ff),
   (some "detector_potential", .fh),
   (some "resistance", .fh),
   (some "tape_id", .fh),
   (some "max_transmittance", .ff),
   (some "band_id", .fh),
   (some "rms_noise", .ff),
   (some "year_avg", .fh),
   (some "dayofyear_avg", .fh),
   (some "year_begin", .fh),
   (some "dayofyear_begin", .fh),
   (some "year_end", .fh),
   (some "dayofyear_end", .fh),
   (none, .fx 2),
   (some "quality", .fs 2),
   (none, .fx 2),
   (some "temperature", .fh),
   (some "pressure", .fh),
   (some "relative_humidity", .fc),
   (some "tropopause_height", .fc),
   (some "wavenumber_begin", .ff),
   (some "wavenumber_end", .ff),
   (some "n_points", .fi),
   (some "resolution", .ff),
   (some "wavenumber_step", .fd)]

/-- Field layout of the Rinsland binary sub-header. -/
def rinsland_datahdr_ffmt : FFmt :=
  [(some "wavenumber_begin", .fd),
   (some "wavenumber_end", .fd),
   (some "wavenumber_step", .fd),
   (some "n_points", .fi)]

example : calcsize fts1_header_ffmt = 870 := by decide
example : calcsize bruker_header_ffmt = 1280 := by decide
example : calcsize spec_header_ffmt = 128 := by decide
example : calcsize spec_record_ffmt = 128 := by decide

/-! ## Python dict and str primitives used by the readers -/

/-- `d[k] = v` on a Python dict: overwrite in place, or append a new key. -/
def dset : List (String × BVal) → String → BVal → List (String × BVal)
  | [], k, v => [(k, v)]
  | (k', v') :: rest, k, v =>
      if k' = k then (k, v) :: rest else (k', v') :: dset rest k v

/-- `d.pop(k)`: the value and the dict without the key (`none` = `KeyError`). -/
def dpop : List (String × BVal) → String → Option (BVal × List (String × BVal))
  | [], _ => none
  | (k', v') :: rest, k =>
      if k' = k then some (v', rest)
      else (dpop rest k).map (fun p => (p.1, (k', v') :: p.2))

/-- `bytes.decode()`, modelled for ASCII content: non-ASCII bytes are mapped
to a decode error (`UnicodeDecodeError` is folded into `convError`). -/
def pyDecodeBytes (bs : List ℕ) : Option String :=
  if bs.all (· < 128) then some (String.mk (bs.map Char.ofNat)) else none

/-- The six ASCII whitespace characters stripped by `str.strip()`. -/
def isPySpace (c : Char) : Bool :=
  c = ' ' || c = '\t' || c = '\n' || c = '\r' || c = '\x0b' || c = '\x0c'

/-- `str.strip()` (ASCII whitespace). -/
def pyStrip (s : String) : String :=
  String.mk (((s.toList.dropWhile isPySpace).reverse.dropWhile isPySpace).reverse)

/-! ## Calendar model (`datetime.datetime` / `datetime.timedelta`)

A datetime value is represented as an exact rational count of seconds from
the proleptic-Gregorian day 0 (so midnight of a date is
`86400 * toordinal`); `timedelta` arithmetic is exact rational addition. -/

def isLeapYear (y : ℕ) : Bool :=
  y % 4 == 0 && (y % 100 != 0 || y % 400 == 0)

/-- Month lengths of a year. -/
def monthDays (y : ℕ) : List ℕ :=
  [31, if isLeapYear y then 29 else 28, 31, 30, 31, 30, 31, 31, 30, 31, 30, 31]

def daysInMonth (y m : ℕ) : ℕ :=
  (monthDays y).getD (m - 1) 0

def daysBeforeYear (y : ℕ) : ℕ :=
  365 * (y - 1) + (y - 1) / 4 - (y - 1) / 100 + (y - 1) / 400

def daysBeforeMonth (y m : ℕ) : ℕ :=
  ((monthDays y).take (m - 1)).sum

/-- `datetime.date(y, m, d).toordinal()`: day 1 = January 1 of year 1. -/
def toordinal (y m d : ℕ) : ℕ :=
  daysBeforeYear y + daysBeforeMonth y m + d

example : toordinal 1 1 1 = 1 := by decide
example : toordinal 2000 1 1 = 730120 := by decide
example : toordinal 2000 2 1 = 730151 := by decide

/-- `datetime.datetime(y, m, d, hh, mi, ss, us)` with its argument
validation, as seconds from day 0. -/
def pyDatetime (y m d : ℕ) (hh : ℕ := 0) (mi : ℕ := 0) (ss : ℕ := 0)
    (us : ℕ := 0) : Option ℚ :=
  if 1 ≤ y ∧ y ≤ 9999 ∧ 1 ≤ m ∧ m ≤ 12 ∧ 1 ≤ d ∧ d ≤ daysInMonth y m ∧
      hh < 24 ∧ mi < 60 ∧ ss < 60 ∧ us < 1000000 then
    some ((toordinal y m d : ℚ) * 86400 + hh * 3600 + mi * 60 + ss
          + (us : ℚ) / 1000000)
  else
    none

/-- `datetime.timedelta(days)` in seconds. -/
def timedeltaDays (d : ℤ) : ℚ := (d : ℚ) * 86400

/-- `datetime.timedelta(seconds=s)` in seconds. -/
def timedeltaSeconds (s : ℚ) : ℚ := s

/-! ## Arithmetic characterization of the bit helpers -/

theorem bitsLsbToByte_cons (x : ℕ) (xs : List ℕ) :
    bitsLsbToByte (x :: xs) = 2 * bitsLsbToByte xs + x := rfl

theorem bytes_2_bits_cons_nos (b : ℕ) (bs : List ℕ) :
    bytes_2_bits (b :: bs) false = byteBitsLsb b ++ bytes_2_bits bs false := by
  rw [bytes_2_bits_cons]; simp

theorem bytes_2_bits_cons_swap (b : ℕ) (bs : List ℕ) :
    bytes_2_bits (b :: bs) true = (byteBitsLsb b).reverse ++ bytes_2_bits bs true := by
  rw [bytes_2_bits_cons]; simp

theorem bits_2_int_swap (l : List ℕ) : bits_2_int l true = bitsLsbToByte l := by
  induction l with
  | nil => rfl
  | cons x xs ih =>
    have h1 : bits_2_int (x :: xs) true = 2 * bits_2_int xs true + x := by
      simp [bits_2_int, List.foldl_append]
    rw [h1, ih, bitsLsbToByte_cons]

theorem bitsLsbToByte_append (A B : List ℕ) :
    bitsLsbToByte (A ++ B) = bitsLsbToByte A + 2 ^ A.length * bitsLsbToByte B := by
  induction A with
  | nil => simp [bitsLsbToByte]
  | cons x xs ih =>
    simp only [List.cons_append, bitsLsbToByte, List.foldr_cons,
      List.length_cons] at ih ⊢
    rw [ih]
    ring

theorem bitsLsbToByte_take (l : List ℕ) (k : ℕ) (h : ∀ b ∈ l, b < 2) :
    bitsLsbToByte (l.take k) = bitsLsbToByte l % 2 ^ k := by
  induction l generalizing k with
  | nil => simp [bitsLsbToByte]
  | cons x xs ih =>
    cases k with
    | zero => simp [bitsLsbToByte, Nat.mod_one]
    | succ k =>
      have hx : x < 2 := h x (by simp)
      have hxs : ∀ b ∈ xs, b < 2 := fun b hb => h b (by simp [hb])
      rw [List.take_succ_cons, bitsLsbToByte_cons, bitsLsbToByte_cons, ih k hxs]
      have hmod := Nat.div_add_mod (bitsLsbToByte xs) (2 ^ k)
      set q := bitsLsbToByte xs / 2 ^ k with hq
      set r := bitsLsbToByte xs % 2 ^ k with hr'
      have hr : r < 2 ^ k := Nat.mod_lt _ (Nat.pos_pow_of_pos k (by norm_num))
      have hsplit : 2 * bitsLsbToByte xs + x = (2 ^ (k + 1)) * q + (2 * r + x) := by
        rw [← hmod]; ring
      rw [hsplit, Nat.mul_add_mod, Nat.mod_eq_of_lt (by
        have h2 : 2 ^ (k + 1) = 2 * 2 ^ k := by ring
        omega)]

theorem bitsLsbToByte_drop (l : List ℕ) (a : ℕ) (h : ∀ b ∈ l, b < 2) :
    bitsLsbToByte (l.drop a) = bitsLsbToByte l >>> a := by
  induction l generalizing a with
  | nil => simp [bitsLsbToByte]
  | cons x xs ih =>
    cases a with
    | zero => simp
    | succ a =>
      have hx : x < 2 := h x (by simp)
      have hxs : ∀ b ∈ xs, b < 2 := fun b hb => h b (by simp [hb])
      rw [List.drop_succ_cons, ih a hxs, bitsLsbToByte_cons,
        show a + 1 = 1 + a by omega, Nat.shiftRight_add]
      congr 1
      simp only [Nat.shiftRight_succ, Nat.shiftRight_zero]
      omega

theorem bytes_2_bits_bits_lt (bs : List ℕ) (swap : Bool) :
    ∀ b ∈ bytes_2_bits bs swap, b < 2 := by
  induction bs with
  | nil => simp [bytes_2_bits]
  | cons x xs ih =>
    intro b hb
    rw [bytes_2_bits_cons] at hb
    rcases List.mem_append.mp hb with h | h
    · cases swap with
      | false => exact byteBitsLsb_lt_two x b (by simpa using h)
      | true =>
        simp only [if_pos, List.mem_reverse] at h
        exact byteBitsLsb_lt_two x b (by simpa using h)
    · exact ih b h

theorem bytes_2_bits_length (bs : List ℕ) (swap : Bool) :
    (bytes_2_bits bs swap).length = 8 * bs.length := by
  induction bs with
  | nil => simp [bytes_2_bits]
  | cons x xs ih =>
    rw [bytes_2_bits_cons]
    cases swap <;> simp [byteBitsLsb, ih] <;> ring

theorem bitsLsbToByte_bytes_2_bits (bs : List ℕ) (h : ∀ b ∈ bs, b < 256) :
    bitsLsbToByte (bytes_2_bits bs false) = leWord bs := by
  induction bs with
  | nil => rfl
  | cons x xs ih =>
    have hx : x < 256 := h x (by simp)
    have hxs : ∀ b ∈ xs, b < 256 := fun b hb => h b (by simp [hb])
    rw [bytes_2_bits_cons_nos, bitsLsbToByte_append,
      bitsLsbToByte_byteBitsLsb x hx, ih hxs]
    have hlen : (byteBitsLsb x).length = 8 := by simp [byteBitsLsb]
    rw [hlen]
    simp only [leWord, List.foldr_cons]
    show x + 2 ^ 8 * (leWord xs) = leWord xs * 256 + x
    ring

/-- Main extraction identity: slicing the LSB-first bit expansion at range
`[a, a+k)` and reading it with `bits_2_int(·, swap=True)` is a shift-mask of
the little-endian value of the bytes. -/
theorem extract_bits_eq (bs : List ℕ) (a k : ℕ) (h : ∀ b ∈ bs, b < 256) :
    bits_2_int (((bytes_2_bits bs).drop a).take k) true =
      (leWord bs >>> a) % 2 ^ k := by
  have hbits : ∀ b ∈ bytes_2_bits bs, b < 2 := bytes_2_bits_bits_lt bs false
  have hdrop : ∀ b ∈ (bytes_2_bits bs).drop a, b < 2 :=
    fun b hb => hbits b (List.mem_of_mem_drop hb)
  rw [bits_2_int_swap, bitsLsbToByte_take _ _ hdrop, bitsLsbToByte_drop _ _ hbits,
    bitsLsbToByte_bytes_2_bits bs h]

/-! ## Association-list (Python dict) lemmas -/

theorem lookup_zip_not_mem (ks : List String) (vs : List BVal) (k : String)
    (h : k ∉ ks) : List.lookup k (ks.zip vs) = none := by
  induction ks generalizing vs with
  | nil => simp
  | cons a as ih =>
    cases vs with
    | nil => simp
    | cons v vs' =>
      have hne : (k == a) = false := by
        simp only [beq_eq_false_iff_ne, ne_eq]
        intro he
        exact h (he ▸ List.mem_cons_self a as)
      simp only [List.zip_cons_cons, List.lookup, hne]
      exact ih vs' (fun hm => h (List.mem_cons_of_mem a hm))

theorem dset_lookup_ne (d : List (String × BVal)) (k : String) (v : BVal)
    (k' : String) (h : k' ≠ k) :
    List.lookup k' (dset d k v) = List.lookup k' d := by
  induction d with
  | nil =>
    simp only [dset, List.lookup, List.lookup_nil]
    simp [beq_eq_false_iff_ne.mpr h]
  | cons p rest ih =>
    by_cases hk : p.1 = k
    · simp only [dset, hk, if_pos rfl, List.lookup]
      have h1 : (k' == k) = false := beq_eq_false_iff_ne.mpr h
      have h2 : (k' == p.1) = false := by rw [hk]; exact h1
      simp [h1, h2]
    · simp only [dset, if_neg hk, List.lookup]
      cases hkk : (k' == p.1) with
      | true => rfl
      | false => exact ih

/-! ## Bruker reader (`read_bruker` in `spector/io/legacy.py`) -/

/-- Lines 99–113 of `read_bruker`: read the 1280-byte header, decode and
strip the `name` bytes, then check the two stored point counts.  On a
mismatch the code builds the `ValueError` message by evaluating
`spec['name']`, `spec['n_points1']` and `spec['n_points2']` in that order;
on agreement `n_points` is replaced by the popped `n_points2`. -/
def read_bruker_check (f : PyFile) : Except PyErr (List (String × BVal)) :=
  match read_bin_block f bruker_header_ffmt with
  | .error e => .error e
  | .ok (spec0, _) =>
    match List.lookup "name" spec0 with
    | some (.bytes bs) =>
      match pyDecodeBytes bs with
      | some s =>
        let spec := dset spec0 "name" (.str (pyStrip s))
        match List.lookup "n_points" spec, List.lookup "n_points2" spec with
        | some np, some np2 =>
          if np ≠ np2 then
            match List.lookup "n_points1" spec with
            | none => .error (.keyError "n_points1")
            | some c1 => .error (.valueError (pyStrip s) c1 np2)
          else
            match dpop spec "n_points2" with
            | some pv => .ok (dset pv.2 "n_points" pv.1)
            | none => .error (.keyError "n_points2")
        | none, _ => .error (.keyError "n_points")
        | some _, none => .error (.keyError "n_points2")
      | none => .error .convError
    | some _ => .error .convError
    | none => .error (.keyError "name")

/-- `math.modf` of a non-negative value: `(fractional part, integral part)`
(exact-rational model). -/
def modfNonneg (q : ℚ) : ℚ × ℚ := (q - ⌊q⌋, (⌊q⌋ : ℚ))

/-- Lines 116–129 of `read_bruker`: `datetime_avg` from the raw `date_block`
and `time_block` bytes.  `int(x)` on the non-negative `seci` and
`secd * 1e6` is floor. -/
def bruker_datetime (dateBlock timeBlock : List ℕ) : Option ℚ :=
  let dateb := bytes_2_bits dateBlock
  let timeb := bytes_2_bits timeBlock
  let p := modfNonneg ((bits_2_int (timeb.take 12) true : ℚ) / 10)
  pyDatetime
    (bits_2_int ((dateb.drop 12).take 12) true)
    (bits_2_int ((dateb.drop 6).take 6) true)
    (bits_2_int (dateb.take 6) true)
    (bits_2_int ((timeb.drop 18).take 6) true)
    (bits_2_int ((timeb.drop 12).take 6) true)
    (⌊p.2⌋.toNat)
    (⌊p.1 * 1000000⌋.toNat)

/-- The `day` argument passed to `datetime.datetime` by `read_bruker`
(source: `bits_2_int(dateb[:6], swap=True)` over
`dateb = bytes_2_bits(date_block)`). -/
def bruker_day (dateBlock : List ℕ) : ℕ :=
  bits_2_int ((bytes_2_bits dateBlock).take 6) true

/-- Modelled from claim C2's words: the date block converted "to bit
sequences with swapped bit order within each byte"
(`bytes_2_bits(·, swap=True)`), day "extracted from date-block bits
[0:6)" and read as a binary numeral by `bits_2_int`. -/
def claim_c2_day (dateBlock : List ℕ) : ℕ :=
  bits_2_int ((bytes_2_bits dateBlock true).take 6)

/-- The `hour` argument passed to `datetime.datetime` by `read_bruker`
(source: `bits_2_int(timeb[18:24], swap=True)`). -/
def bruker_hour (timeBlock : List ℕ) : ℕ :=
  bits_2_int (((bytes_2_bits timeBlock).drop 18).take 6) true

/-- Modelled from claim C2's words: the hour "extracted from time-block
bits [12:18)" of the per-byte bit-order-swapped sequence. -/
def claim_c2_hour (timeBlock : List ℕ) : ℕ :=
  bits_2_int (((bytes_2_bits timeBlock true).drop 12).take 6)

/-! ## FTS1 reader (`read_fts1` in `spector/io/legacy.py`) -/

/-- Lines 52–55 of `read_fts1`:
`datetime.datetime(year, 1, 1) + datetime.timedelta(dayofyear - 1)`. -/
def fts1_datetime (year dayofyear : ℤ) : Option ℚ :=
  if 1 ≤ year then
    (pyDatetime year.toNat 1 1).map (fun dt => dt + timedeltaDays (dayofyear - 1))
  else
    none

/-- Lines 56–61 of `read_fts1`: `datetime_avg = datetime_begin +
(datetime_end - datetime_begin) / 2 + timedelta(seconds=hour * 3600)`. -/
def fts1_datetime_avg (dtBegin dtEnd : ℚ) (hour : ℚ) : ℚ :=
  dtBegin + (dtEnd - dtBegin) / 2 + timedeltaSeconds (hour * 3600)

/-- `np.fromfile(f, dtype='f')`: consecutive 4-byte little-endian float
words, a trailing incomplete group being dropped. -/
def f32Words : List ℕ → List ℕ
  | b0 :: b1 :: b2 :: b3 :: rest => leWord [b0, b1, b2, b3] :: f32Words rest
  | _ => []

/-- Python slicing `data[:n]` (negative `n` counts from the end). -/
def pySliceTo (l : List ℕ) (n : ℤ) : List ℕ :=
  if n < 0 then l.take ((l.length : ℤ) + n).toNat else l.take n.toNat

/-- Lines 81–84 of `read_fts1`: seek to byte 2048, read all remaining
complete 4-byte floats, keep `data[:n_points]`. -/
def fts1_data (file : List ℕ) (nPoints : ℤ) : List ℕ :=
  pySliceTo (f32Words (file.drop 2048)) nPoints

/-! ## SPEC catalog reader (`read_spec` in `spector/io/legacy.py`) -/

/-- Lines 178–181 of `read_spec`: read `n` record pairs, appending only the
second record of each pair. -/
def spec_read_records : ℕ → PyFile → Except PyErr (List (List (String × BVal)) × PyFile)
  | 0, f => .ok ([], f)
  | n + 1, f =>
    match read_bin_block f spec_record_ffmt with
    | .error e => .error e
    | .ok (_, f1) =>
      match read_bin_block f1 spec_record_ffmt with
      | .error e => .error e
      | .ok (r, f2) =>
        match spec_read_records n f2 with
        | .error e => .error e
        | .ok (rest, f3) => .ok (r :: rest, f3)

/-- Lines 174–181 of `read_spec`: the header block, then the record-pair
loop driven by the header's `n_records` (a non-positive count runs zero
iterations, like `range`). -/
def read_spec_raw (f : PyFile) :
    Except PyErr ((List (String × BVal)) × List (List (String × BVal)) × PyFile) :=
  match read_bin_block f spec_header_ffmt with
  | .error e => .error e
  | .ok (header, f1) =>
    match List.lookup "n_records" header with
    | some (.int z) =>
      match spec_read_records z.toNat f1 with
      | .error e => .error e
      | .ok (records, f2) => .ok (header, records, f2)
    | _ => .error (.keyError "n_records")

/-- A post-processed SPEC record value: a number or `float('nan')`. -/
inductive SpecNum
  | num (q : ℚ)
  | nan
  deriving DecidableEq

/-- Lines 198–200, 210–211 and 222 of `read_spec` for `relative_humidity`:
decode the raw byte with `bits_2_int(bytes_2_bits(.))`, replace a −99
result by NaN, then scale by `1.`. -/
def spec_relative_humidity (raw : ℕ) : SpecNum :=
  let v : ℤ := (bits_2_int (bytes_2_bits [raw]) : ℕ)
  if v = -99 then .nan else .num ((v : ℚ) * 1)

/-- Lines 201–203, 212–213 and 221 of `read_spec` for `tropopause_height`:
decode the raw byte, replace a −9 result by NaN, then scale by `0.1`. -/
def spec_tropopause_height (raw : ℕ) : SpecNum :=
  let v : ℤ := (bits_2_int (bytes_2_bits [raw]) : ℕ)
  if v = -9 then .nan else .num ((v : ℚ) * (1 / 10))

/-- Lines 206–207 and 219 of `read_spec` for `temperature`: the decoded
signed 16-bit value, −9999 replaced by NaN, then scaled by `0.1`. -/
def spec_temperature (v : ℤ) : SpecNum :=
  if v = -9999 then .nan else .num ((v : ℚ) * (1 / 10))

/-- Lines 208–209 and 220 of `read_spec` for `pressure`: the decoded signed
16-bit value, −9999 replaced by NaN, then scaled by `0.1`. -/
def spec_pressure (v : ℤ) : SpecNum :=
  if v = -9999 then .nan else .num ((v : ℚ) * (1 / 10))

/-- The eleven flag/level sub-fields decoded from the packed 2-byte
`quality` field (lines 241–253 of `read_spec`); the field modelling the
source's `has_bad_sn_ratio` carries a `_flag` suffix here. -/
structure SpecQuality where
  is_bad_spectrum : Bool
  is_mean_spectrum : Bool
  is_bad_zero : Bool
  fringing_level : ℕ
  has_bad_sn_ratio_flag : Bool
  has_bad_ils : Bool
  is_sun_centered : Bool
  has_pollution : Bool
  has_slow_signal_variation : Bool
  has_fast_signal_variation : Bool
  has_technical_problem : Bool
  weather_id : ℕ
  deriving DecidableEq

/-- Lines 241–253 of `read_spec`: `qb = bytes_2_bits(quality)` over the two
raw bytes, `bool(qb[i])` for the flags (`qb` always has 16 entries, so the
`getD` defaults are never used), `bits_2_int` for the packed levels, and
the inverted bit 7. -/
def spec_quality (b0 b1 : ℕ) : SpecQuality :=
  let qb := bytes_2_bits [b0, b1]
  { is_bad_spectrum := qb.getD 0 0 != 0
    is_mean_spectrum := qb.getD 1 0 != 0
    is_bad_zero := qb.getD 2 0 != 0
    fringing_level := bits_2_int ((qb.drop 3).take 2)
    has_bad_sn_ratio_flag := qb.getD 5 0 != 0
    has_bad_ils := qb.getD 6 0 != 0
    is_sun_centered := qb.getD 7 0 == 0
    has_pollution := qb.getD 8 0 != 0
    has_slow_signal_variation := qb.getD 9 0 != 0
    has_fast_signal_variation := qb.getD 10 0 != 0
    has_technical_problem := qb.getD 11 0 != 0
    weather_id := bits_2_int (qb.drop 13) }

/-! ## Text block reader (`read_str_block`) and the Rinsland header

The Rinsland header regular expression uses only a linear sequence of
character-class atoms, each either a literal (an anonymous class
quantified `{1}`), an exactly-quantified named class `{n}`, or a greedy
named class `+`.  The matcher below implements Python's leftmost
greedy-with-backtracking semantics for exactly that fragment, anchored at
the start and ignoring trailing input (`re.match`). -/

/-- Quantifier of one regex atom. -/
inductive RQuant
  /-- `{n}`: exactly `n` repetitions. -/
  | exact (n : ℕ)
  /-- `+`: one or more repetitions, greedy. -/
  | plus

/-- One atom of the pattern: an optionally named character class with a
quantifier. -/
structure RItem where
  gname : Option String
  cls : Char → Bool
  quant : RQuant

/-- Length of the maximal prefix run of characters in a class. -/
def clsRun (p : Char → Bool) : List Char → ℕ
  | [] => 0
  | c :: cs => if p c then clsRun p cs + 1 else 0

/-- Leftmost greedy backtracking matcher: the named groups (as raw
character lists, in group order) of the first match, or `none`.  For a
greedy `+` the candidate lengths are tried longest first; trailing input
after the last atom is ignored. -/
def matchItems : List RItem → List Char → Option (List (String × List Char))
  | [], _ => some []
  | it :: rest, s =>
    let run := clsRun it.cls s
    let lens : List ℕ := match it.quant with
      | .exact n => if n ≤ run then [n] else []
      | .plus => (List.range run).map (fun j => run - j)
    lens.findSome? (fun n =>
      (matchItems rest (s.drop n)).map (fun g =>
        match it.gname with
        | some nm => (nm, s.take n) :: g
        | none => g))

/-- A literal character atom. -/
def rlit (c : Char) : RItem := ⟨none, fun x => x == c, .exact 1⟩

/-- A named group atom. -/
def rgrp (nm : String) (p : Char → Bool) (q : RQuant) : RItem := ⟨some nm, p, q⟩

/-- `\w` (ASCII model: the header text is ASCII). -/
def isWordChar (c : Char) : Bool := c.isAlphanum || c == '_'

/-- `[\d.]`. -/
def isDigitDot (c : Char) : Bool := c.isDigit || c == '.'

/-- `rinsland_header_regex` from `spector/io/_iofmt.py`, atom by atom. -/
def rinsland_header_items : List RItem :=
  [rgrp "spec_type" (fun c => 'A' ≤ c && c ≤ 'Z') (.exact 3), rlit '-',
   rgrp "name" (fun c => isWordChar c || c == '.') (.exact 12), rlit ' ',
   rgrp "date" (fun c => isWordChar c || c == ' ') (.exact 11), rlit ' ', rlit ' ',
   rgrp "resolution" isDigitDot .plus, rlit 'm', rlit 'K', rlit ' ',
   rgrp "aperture" isDigitDot .plus, rlit ' ', rlit 'm', rlit 'm', rlit ' ',
   rlit 'A', rlit 'p', ⟨none, fun c => c != '\n', .exact 1⟩, rlit 'Z', rlit 'A', rlit '=',
   rgrp "zenith_angle" isDigitDot .plus, rlit ' ',
   rlit 'S', rlit '/', rlit 'N', rlit '=',
   rgrp "sn_ratio" (fun c => c.isDigit || c == ' ') .plus, rlit ' ',
   rlit 'h', rlit '=',
   rgrp "hour_avg" isDigitDot .plus]

/-- Split a character list on a separator character. -/
def splitOnChar (sep : Char) : List Char → List (List Char)
  | [] => [[]]
  | c :: rest =>
    let r := splitOnChar sep rest
    if c == sep then [] :: r
    else
      match r with
      | [] => [[c]]
      | h :: t => (c :: h) :: t

/-- Numeric value of an ASCII digit list. -/
def digitsVal (cs : List Char) : ℕ :=
  cs.foldl (fun a c => 10 * a + (c.toNat - 48)) 0

/-- `int(s)`: strip whitespace, then a non-empty all-digit string
(the sign forms are not needed by this format). -/
def pyIntOfChars (cs : List Char) : Option ℤ :=
  let t := (cs.dropWhile isPySpace).reverse.dropWhile isPySpace |>.reverse
  if t ≠ [] && t.all Char.isDigit then some (digitsVal t) else none

/-- `float(s)` for plain decimal strings, as an exact rational. -/
def pyFloatOfChars (cs : List Char) : Option ℚ :=
  let t := (cs.dropWhile isPySpace).reverse.dropWhile isPySpace |>.reverse
  match splitOnChar '.' t with
  | [a] =>
    if a ≠ [] && a.all Char.isDigit then some ((digitsVal a : ℚ)) else none
  | [a, b] =>
    if (a ≠ [] || b ≠ []) && a.all Char.isDigit && b.all Char.isDigit then
      some ((digitsVal a : ℚ) + (digitsVal b : ℚ) / (10 : ℚ) ^ b.length)
    else none
  | _ => none

/-- The C-locale abbreviated month names used by `%b`. -/
def monthAbbrevs : List (List Char) :=
  [['J','a','n'], ['F','e','b'], ['M','a','r'], ['A','p','r'],
   ['M','a','y'], ['J','u','n'], ['J','u','l'], ['A','u','g'],
   ['S','e','p'], ['O','c','t'], ['N','o','v'], ['D','e','c']]

/-- `datetime.strptime(s, '%d %b %Y')`: a 1–2 digit day, an abbreviated
month name and a 4-digit year, validated by the datetime constructor. -/
def strptimeDayMonYear (cs : List Char) : Option ℚ :=
  match splitOnChar ' ' cs with
  | [d, mon, y] =>
    if (d.length == 1 || d.length == 2) && d.all Char.isDigit &&
        y.length == 4 && y.all Char.isDigit then
      match monthAbbrevs.indexOf? mon with
      | some mi => pyDatetime (digitsVal y) (mi + 1) (digitsVal d)
      | none => none
    else none
  | _ => none

/-- A converted text-header field value. -/
inductive PVal
  /-- `str` field. -/
  | str (s : String)
  /-- `int` field. -/
  | int (z : ℤ)
  /-- `float` field, exact-rational model. -/
  | flt (q : ℚ)
  /-- `datetime` field, as seconds from proleptic day 0. -/
  | dtime (q : ℚ)
  deriving DecidableEq

/-- `rinsland_header_ftype` from `spector/io/_iofmt.py`: the conversion
applied to one named field (`str` identity for `spec_type` and `name`,
`strptime` for `date`, `float`/`int` for the numeric fields). -/
def rinsland_convert (k : String) (raw : List Char) : Option PVal :=
  if k == "date" then (strptimeDayMonYear raw).map .dtime
  else if k == "resolution" || k == "aperture" || k == "zenith_angle" ||
      k == "hour_avg" then (pyFloatOfChars raw).map .flt
  else if k == "sn_ratio" then (pyIntOfChars raw).map .int
  else some (.str (String.mk raw))

/-- The `for k, f in ftype.items(): fields[k] = f(fields[k])` loop (the
type table's keys are exactly the named groups, in group order): every
field converted in place, the first conversion exception aborting. -/
def convFields : List (String × List Char) → Option (List (String × PVal))
  | [] => some []
  | g :: rest =>
    match rinsland_convert g.1 g.2, convFields rest with
    | some v, some fs => some ((g.1, v) :: fs)
    | _, _ => none

/-- `read_str_block(string, rinsland_header_regex, rinsland_header_ftype)`
from `spector/utils/io.py`: `re.match(...).groupdict()` (an unmatched
pattern leaves `None` and raises `AttributeError`), then every field of
the type table converted in place (a conversion exception propagates). -/
def read_str_block_rinsland (s : String) : Except PyErr (List (String × PVal)) :=
  match matchItems rinsland_header_items s.toList with
  | none => .error .matchError
  | some groups =>
    match convFields groups with
    | some fields => .ok fields
    | none => .error .convError

/-! ## Round-trip lemmas for `bytes_2_bits` -/

theorem chunk8_cons8 (a0 a1 a2 a3 a4 a5 a6 a7 : ℕ) (rest : List ℕ) :
    chunk8 (a0 :: a1 :: a2 :: a3 :: a4 :: a5 :: a6 :: a7 :: rest) =
      [a0, a1, a2, a3, a4, a5, a6, a7] :: chunk8 rest := rfl

theorem chunk8_bytes_roundtrip (bs : List ℕ) (h : ∀ b ∈ bs, b < 256) :
    (chunk8 (bytes_2_bits bs false)).map bitsLsbToByte = bs := by
  induction bs with
  | nil => rfl
  | cons b rest ih =>
    have hb : b < 256 := h b (by simp)
    have hrest : ∀ x ∈ rest, x < 256 := fun x hx => h x (by simp [hx])
    have hlit : byteBitsLsb b = [(b >>> 0) % 2, (b >>> 1) % 2, (b >>> 2) % 2,
        (b >>> 3) % 2, (b >>> 4) % 2, (b >>> 5) % 2, (b >>> 6) % 2,
        (b >>> 7) % 2] := rfl
    rw [bytes_2_bits_cons_nos, hlit]
    simp only [List.cons_append, List.nil_append, chunk8_cons8, List.map_cons]
    rw [← hlit, bitsLsbToByte_byteBitsLsb b hb, ih hrest]

theorem chunk8_bytes_roundtrip_swap (bs : List ℕ) (h : ∀ b ∈ bs, b < 256) :
    (chunk8 (bytes_2_bits bs true)).map (fun g => bitsLsbToByte g.reverse) = bs := by
  induction bs with
  | nil => rfl
  | cons b rest ih =>
    have hb : b < 256 := h b (by simp)
    have hrest : ∀ x ∈ rest, x < 256 := fun x hx => h x (by simp [hx])
    have hlit : (byteBitsLsb b).reverse = [(b >>> 7) % 2, (b >>> 6) % 2,
        (b >>> 5) % 2, (b >>> 4) % 2, (b >>> 3) % 2, (b >>> 2) % 2,
        (b >>> 1) % 2, (b >>> 0) % 2] := rfl
    have hlit2 : ([(b >>> 7) % 2, (b >>> 6) % 2, (b >>> 5) % 2, (b >>> 4) % 2,
        (b >>> 3) % 2, (b >>> 2) % 2, (b >>> 1) % 2,
        (b >>> 0) % 2] : List ℕ).reverse = byteBitsLsb b := rfl
    rw [bytes_2_bits_cons_swap, hlit]
    simp only [List.cons_append, List.nil_append, chunk8_cons8, List.map_cons]
    rw [hlit2, bitsLsbToByte_byteBitsLsb b hb, ih hrest]

theorem bytes_2_bits_foldr (bs : List ℕ) :
    bytes_2_bits bs false = bs.foldr (fun b acc => byteBitsLsb b ++ acc) [] ∧
    bytes_2_bits bs true = bs.foldr (fun b acc => (byteBitsLsb b).reverse ++ acc) [] := by
  induction bs with
  | nil => exact ⟨rfl, rfl⟩
  | cons b rest ih =>
    rw [bytes_2_bits_cons_nos, bytes_2_bits_cons_swap, List.foldr_cons,
      List.foldr_cons, ih.1, ih.2]
    exact ⟨rfl, rfl⟩

/-- C9: `bytes_2_bits` emits, for each input byte, its 8 bits
least-significant-bit first (per-byte reversed when `swap` is true); the
output has length `8 × |input|`, and regrouping into bytes of 8 (with the
matching bit order) reproduces the original byte sequence, with and
without `swap`. -/
theorem claim_c9_bytes_2_bits_roundtrip (bs : List ℕ) (h : ∀ b ∈ bs, b < 256) :
    (bytes_2_bits bs false).length = 8 * bs.length ∧
    (bytes_2_bits bs true).length = 8 * bs.length ∧
    bytes_2_bits bs false = bs.foldr (fun b acc => byteBitsLsb b ++ acc) [] ∧
    bytes_2_bits bs true = bs.foldr (fun b acc => (byteBitsLsb b).reverse ++ acc) [] ∧
    (chunk8 (bytes_2_bits bs false)).map bitsLsbToByte = bs ∧
    (chunk8 (bytes_2_bits bs true)).map (fun g => bitsLsbToByte g.reverse) = bs :=
  ⟨bytes_2_bits_length bs false, bytes_2_bits_length bs true,
   (bytes_2_bits_foldr bs).1, (bytes_2_bits_foldr bs).2,
   chunk8_bytes_roundtrip bs h, chunk8_bytes_roundtrip_swap bs h⟩

/-- C9 witness: the round-trip theorem applied to the concrete byte
sequence `[0, 255, 137]`. -/
theorem claim_c9_witness :
    (bytes_2_bits [0, 255, 137] false).length = 8 * 3 ∧
    (bytes_2_bits [0, 255, 137] true).length = 8 * 3 ∧
    bytes_2_bits [0, 255, 137] false =
      [0, 255, 137].foldr (fun b acc => byteBitsLsb b ++ acc) [] ∧
    bytes_2_bits [0, 255, 137] true =
      [0, 255, 137].foldr (fun b acc => (byteBitsLsb b).reverse ++ acc) [] ∧
    (chunk8 (bytes_2_bits [0, 255, 137] false)).map bitsLsbToByte = [0, 255, 137] ∧
    (chunk8 (bytes_2_bits [0, 255, 137] true)).map
      (fun g => bitsLsbToByte g.reverse) = [0, 255, 137] :=
  claim_c9_bytes_2_bits_roundtrip [0, 255, 137] (by decide)

/-! ## Claim C8: decoding of the packed SPEC quality field -/

/-- C8: over the 16-bit quality value `n = b0 + 256 * b1` (the two raw
bytes, little to big), the decoded sub-fields sit at fixed bit positions:
bit 0 bad-spectrum, bit 1 mean-spectrum, bit 2 bad-zero, bits 3–4 the
fringing level (bit 3 high), bit 5 bad signal-to-noise, bit 6 bad ILS,
bit 7 the inverted sun-centered flag, bits 8–11 pollution / slow / fast /
technical problem, bits 13–15 the weather code (bit 13 high), bit 12
unused; and the pattern with only bit 0 set decodes to bad-spectrum with
everything else false/zero. -/
theorem claim_c8_spec_quality (b0 b1 : ℕ) (h0 : b0 < 256) (h1 : b1 < 256) :
    (spec_quality b0 b1).is_bad_spectrum = (b0 + 256 * b1).testBit 0 ∧
    (spec_quality b0 b1).is_mean_spectrum = (b0 + 256 * b1).testBit 1 ∧
    (spec_quality b0 b1).is_bad_zero = (b0 + 256 * b1).testBit 2 ∧
    (spec_quality b0 b1).fringing_level =
      2 * ((b0 + 256 * b1) >>> 3 % 2) + ((b0 + 256 * b1) >>> 4 % 2) ∧
    (spec_quality b0 b1).has_bad_sn_ratio_flag = (b0 + 256 * b1).testBit 5 ∧
    (spec_quality b0 b1).has_bad_ils = (b0 + 256 * b1).testBit 6 ∧
    (spec_quality b0 b1).is_sun_centered = !(b0 + 256 * b1).testBit 7 ∧
    (spec_quality b0 b1).has_pollution = (b0 + 256 * b1).testBit 8 ∧
    (spec_quality b0 b1).has_slow_signal_variation = (b0 + 256 * b1).testBit 9 ∧
    (spec_quality b0 b1).has_fast_signal_variation = (b0 + 256 * b1).testBit 10 ∧
    (spec_quality b0 b1).has_technical_problem = (b0 + 256 * b1).testBit 11 ∧
    (spec_quality b0 b1).weather_id =
      4 * ((b0 + 256 * b1) >>> 13 % 2) + 2 * ((b0 + 256 * b1) >>> 14 % 2)
        + ((b0 + 256 * b1) >>> 15 % 2) ∧
    spec_quality 1 0 =
      { is_bad_spectrum := true, is_mean_spectrum := false,
        is_bad_zero := false, fringing_level := 0,
        has_bad_sn_ratio_flag := false, has_bad_ils := false,
        is_sun_centered := true, has_pollution := false,
        has_slow_signal_variation := false, has_fast_signal_variation := false,
        has_technical_problem := false, weather_id := 0 } := by
  refine ⟨?_, ?_, ?_, ?_, ?_, ?_, ?_, ?_, ?_, ?_, ?_, ?_, by decide⟩
  · show ((b0 >>> 0) % 2 != 0) = (b0 + 256 * b1).testBit 0
    rw [Bool.eq_iff_iff]
    simp only [bne_iff_ne, ne_eq, Nat.testBit_to_div_mod, decide_eq_true_eq,
      Nat.shiftRight_eq_div_pow]
    omega
  · show ((b0 >>> 1) % 2 != 0) = (b0 + 256 * b1).testBit 1
    rw [Bool.eq_iff_iff]
    simp only [bne_iff_ne, ne_eq, Nat.testBit_to_div_mod, decide_eq_true_eq,
      Nat.shiftRight_eq_div_pow]
    omega
  · show ((b0 >>> 2) % 2 != 0) = (b0 + 256 * b1).testBit 2
    rw [Bool.eq_iff_iff]
    simp only [bne_iff_ne, ne_eq, Nat.testBit_to_div_mod, decide_eq_true_eq,
      Nat.shiftRight_eq_div_pow]
    omega
  · show 2 * (2 * 0 + (b0 >>> 3) % 2) + (b0 >>> 4) % 2 =
      2 * ((b0 + 256 * b1) >>> 3 % 2) + ((b0 + 256 * b1) >>> 4 % 2)
    simp only [Nat.shiftRight_eq_div_pow]
    omega
  · show ((b0 >>> 5) % 2 != 0) = (b0 + 256 * b1).testBit 5
    rw [Bool.eq_iff_iff]
    simp only [bne_iff_ne, ne_eq, Nat.testBit_to_div_mod, decide_eq_true_eq,
      Nat.shiftRight_eq_div_pow]
    omega
  · show ((b0 >>> 6) % 2 != 0) = (b0 + 256 * b1).testBit 6
    rw [Bool.eq_iff_iff]
    simp only [bne_iff_ne, ne_eq, Nat.testBit_to_div_mod, decide_eq_true_eq,
      Nat.shiftRight_eq_div_pow]
    omega
  · show ((b0 >>> 7) % 2 == 0) = !(b0 + 256 * b1).testBit 7
    rw [Bool.eq_iff_iff]
    simp only [beq_iff_eq, Bool.not_eq_true', Nat.testBit_to_div_mod,
      decide_eq_false_iff_not, ne_eq, Nat.shiftRight_eq_div_pow]
    omega
  · show ((b1 >>> 0) % 2 != 0) = (b0 + 256 * b1).testBit 8
    rw [Bool.eq_iff_iff]
    simp only [bne_iff_ne, ne_eq, Nat.testBit_to_div_mod, decide_eq_true_eq,
      Nat.shiftRight_eq_div_pow]
    omega
  · show ((b1 >>> 1) % 2 != 0) = (b0 + 256 * b1).testBit 9
    rw [Bool.eq_iff_iff]
    simp only [bne_iff_ne, ne_eq, Nat.testBit_to_div_mod, decide_eq_true_eq,
      Nat.shiftRight_eq_div_pow]
    omega
  · show ((b1 >>> 2) % 2 != 0) = (b0 + 256 * b1).testBit 10
    rw [Bool.eq_iff_iff]
    simp only [bne_iff_ne, ne_eq, Nat.testBit_to_div_mod, decide_eq_true_eq,
      Nat.shiftRight_eq_div_pow]
    omega
  · show ((b1 >>> 3) % 2 != 0) = (b0 + 256 * b1).testBit 11
    rw [Bool.eq_iff_iff]
    simp only [bne_iff_ne, ne_eq, Nat.testBit_to_div_mod, decide_eq_true_eq,
      Nat.shiftRight_eq_div_pow]
    omega
  · show 2 * (2 * (2 * 0 + (b1 >>> 5) % 2) + (b1 >>> 6) % 2) + (b1 >>> 7) % 2 =
      4 * ((b0 + 256 * b1) >>> 13 % 2) + 2 * ((b0 + 256 * b1) >>> 14 % 2)
        + ((b0 + 256 * b1) >>> 15 % 2)
    simp only [Nat.shiftRight_eq_div_pow]
    omega

/-- C8 witness: the bit-position theorem applied at the concrete pattern
`0x0001` (only bit 0 set). -/
theorem claim_c8_witness :
    (spec_quality 1 0).is_bad_spectrum = (1 + 256 * 0).testBit 0 ∧
    (spec_quality 1 0).is_mean_spectrum = (1 + 256 * 0).testBit 1 ∧
    (spec_quality 1 0).is_bad_zero = (1 + 256 * 0).testBit 2 ∧
    (spec_quality 1 0).fringing_level =
      2 * ((1 + 256 * 0) >>> 3 % 2) + ((1 + 256 * 0) >>> 4 % 2) ∧
    (spec_quality 1 0).has_bad_sn_ratio_flag = (1 + 256 * 0).testBit 5 ∧
    (spec_quality 1 0).has_bad_ils = (1 + 256 * 0).testBit 6 ∧
    (spec_quality 1 0).is_sun_centered = !(1 + 256 * 0).testBit 7 ∧
    (spec_quality 1 0).has_pollution = (1 + 256 * 0).testBit 8 ∧
    (spec_quality 1 0).has_slow_signal_variation = (1 + 256 * 0).testBit 9 ∧
    (spec_quality 1 0).has_fast_signal_variation = (1 + 256 * 0).testBit 10 ∧
    (spec_quality 1 0).has_technical_problem = (1 + 256 * 0).testBit 11 ∧
    (spec_quality 1 0).weather_id =
      4 * ((1 + 256 * 0) >>> 13 % 2) + 2 * ((1 + 256 * 0) >>> 14 % 2)
        + ((1 + 256 * 0) >>> 15 % 2) ∧
    spec_quality 1 0 =
      { is_bad_spectrum := true, is_mean_spectrum := false,
        is_bad_zero := false, fringing_level := 0,
        has_bad_sn_ratio_flag := false, has_bad_ils := false,
        is_sun_centered := true, has_pollution := false,
        has_slow_signal_variation := false, has_fast_signal_variation := false,
        has_technical_problem := false, weather_id := 0 } :=
  claim_c8_spec_quality 1 0 (by decide) (by decide)

/-! ## Claim C3: SPEC sentinel handling -/

set_option maxRecDepth 8000

/-- C3 (code bug): the −9999 sentinels of `temperature` and `pressure` do
map to NaN before scaling, but `bits_2_int(bytes_2_bits(raw))` decodes
every stored byte of `relative_humidity` and `tropopause_height` to a
non-negative integer (in fact the bit-reversed byte), so the −99 and −9
sentinel branches can never fire: no stored byte yields NaN for those two
fields.  In particular the byte `0x9D` (the two's-complement encoding of
−99) decodes to 185 and is kept as a number. -/
theorem claim_c3_sentinel_dead :
    ((List.range 256).all (fun raw =>
      (spec_relative_humidity raw != SpecNum.nan) &&
      (spec_tropopause_height raw != SpecNum.nan))) = true ∧
    spec_relative_humidity 157 = .num 185 ∧
    spec_tropopause_height 247 = .num (239 / 10) ∧
    spec_temperature (-9999) = .nan ∧
    spec_pressure (-9999) = .nan ∧
    spec_temperature 215 = .num (215 / 10) ∧
    spec_pressure (-215) = .num (-215 / 10) := by
  refine ⟨by decide, ?_, ?_, ?_, ?_, ?_, ?_⟩
  · have h : (bits_2_int (bytes_2_bits [157]) : ℕ) = 185 := by decide
    simp only [spec_relative_humidity, h]
    norm_num
  · have h : (bits_2_int (bytes_2_bits [247]) : ℕ) = 239 := by decide
    simp only [spec_tropopause_height, h]
    norm_num
  · simp [spec_temperature]
  · simp [spec_pressure]
  · simp only [spec_temperature]
    norm_num
  · simp only [spec_pressure]
    norm_num

/-! ## Claim C5: the binary block reader -/

theorem read_bin_block_ok (f : PyFile) (ffmt : FFmt)
    (h : f.pos + calcsize ffmt ≤ f.data.length) :
    read_bin_block f ffmt =
      .ok ((ffmtKeys ffmt).zip
             (unpackVals (ffmt.map Prod.snd) ((f.data.drop f.pos).take (calcsize ffmt))),
           ⟨f.data, f.pos + calcsize ffmt⟩) := by
  have hlen : ((f.data.drop f.pos).take (calcsize ffmt)).length = calcsize ffmt := by
    rw [List.length_take, List.length_drop]
    omega
  simp only [read_bin_block, hlen, if_true, if_pos]

/-- The field table of the C5 example: `[("a","h"),(None,"2x"),("b","f")]`. -/
def c5_ffmt : FFmt := [(some "a", .fh), (none, .fx 2), (some "b", .ff)]

/-- C5: over `[("a","h"),(None,"2x"),("b","f")]`, any stream holding at
least the 8-byte total width yields exactly
`{"a": <int16>, "b": <float32>}` — the padding field omitted — and the
cursor advanced by exactly 8 bytes; a stream one byte short fails with
`struct.error` and returns no partial record. -/
theorem claim_c5_read_bin_block (d8 d7 : List ℕ)
    (h8 : 8 ≤ d8.length) (h7 : d7.length = 7) :
    read_bin_block ⟨d8, 0⟩ c5_ffmt =
      .ok ([("a", .int (sign16 (leWord (d8.take 2)))),
            ("b", .f32 (leWord ((d8.drop 4).take 4)))], ⟨d8, 8⟩) ∧
    read_bin_block ⟨d7, 0⟩ c5_ffmt = .error .structError := by
  constructor
  · have hc : calcsize c5_ffmt = 8 := by decide
    have hok := read_bin_block_ok ⟨d8, 0⟩ c5_ffmt (by
      show (0 : ℕ) + calcsize c5_ffmt ≤ d8.length
      rw [hc]
      omega)
    rw [hok, hc]
    rw [Except.ok.injEq, Prod.mk.injEq, PyFile.mk.injEq]
    refine ⟨?_, rfl, rfl⟩
    show List.zip ["a", "b"]
        (unpackVals [FCode.fh, FCode.fx 2, FCode.ff] ((d8.drop 0).take 8)) = _
    rw [List.drop_zero]
    simp only [unpackVals, List.zip_cons_cons, List.zip_nil_right]
    rw [List.drop_drop, List.drop_take]
    norm_num [List.take_take, fwidth]
  · have hbuf : ((d7.drop 0).take (calcsize c5_ffmt)).length = 7 := by
      rw [List.drop_zero, List.length_take, h7]
      decide
    simp only [read_bin_block, hbuf]
    rw [if_neg (by decide)]

/-- C5 witness: the reader theorem applied to the concrete streams
`[1,2,0,0,5,6,7,8,99]` (nine bytes, one more than the total width: the
cursor still advances by exactly 8) and `[1,2,0,0,5,6,7]` (one byte
short). -/
theorem claim_c5_witness :
    read_bin_block ⟨[1, 2, 0, 0, 5, 6, 7, 8, 99], 0⟩ c5_ffmt =
      .ok ([("a", .int 513), ("b", .f32 134678021)],
           ⟨[1, 2, 0, 0, 5, 6, 7, 8, 99], 8⟩) ∧
    read_bin_block ⟨[1, 2, 0, 0, 5, 6, 7], 0⟩ c5_ffmt = .error .structError := by
  have h := claim_c5_read_bin_block [1, 2, 0, 0, 5, 6, 7, 8, 99] [1, 2, 0, 0, 5, 6, 7]
    (by decide) (by decide)
  exact ⟨by rw [h.1]; rfl, h.2⟩

/-! ## Claim C10: FTS1 sample reading never enforces `n_points` as a minimum -/

/-- C10: when the sample section after byte 2048 holds fewer complete
4-byte floats than the declared `n_points`, `read_fts1`'s data stage
returns normally with all available samples (`data[:n]` truncates, it
never fails), so the declared count is only an upper truncation bound. -/
theorem claim_c10_fts1_short_data (file : List ℕ) (nPoints : ℤ)
    (h : ((f32Words (file.drop 2048)).length : ℤ) < nPoints) :
    fts1_data file nPoints = f32Words (file.drop 2048) ∧
    (fts1_data file nPoints).length = (f32Words (file.drop 2048)).length := by
  have h0 : ¬ nPoints < 0 := by omega
  have heq : fts1_data file nPoints = f32Words (file.drop 2048) := by
    unfold fts1_data pySliceTo
    rw [if_neg h0]
    exact List.take_of_length_le (by omega)
  exact ⟨heq, by rw [heq]⟩

/-- A concrete 2054-byte FTS1 file: a zero 2048-byte header region followed
by one complete float word and two trailing bytes. -/
def fts1_short_file : List ℕ := List.replicate 2048 0 ++ [1, 2, 3, 4, 9, 9]

/-- C10 witness: the truncation theorem applied to the concrete short file
(one available float, `n_points = 100`). -/
theorem claim_c10_witness :
    fts1_data fts1_short_file 100 = f32Words (fts1_short_file.drop 2048) ∧
    (fts1_data fts1_short_file 100).length =
      (f32Words (fts1_short_file.drop 2048)).length := by
  have h := claim_c10_fts1_short_data fts1_short_file 100 (by decide)
  exact h

/-! ## Claim C7: FTS1 datetime reconstruction -/

/-- C7: `read_fts1` reconstructs the begin/end datetimes as January 1 of
the stored year plus `(dayofyear − 1)` days (so `(2000, 1)` is
January 1, 2000 and `(2000, 32)` is February 1, 2000), and `datetime_avg`
is `datetime_begin + (datetime_end − datetime_begin)/2 + hour·3600`
seconds. -/
theorem claim_c7_fts1_datetimes (yb db ye de : ℤ) (hour : ℚ)
    (hyb1 : 1 ≤ yb) (hyb2 : yb ≤ 9999) (hye1 : 1 ≤ ye) (hye2 : ye ≤ 9999) :
    fts1_datetime yb db =
      some ((toordinal yb.toNat 1 1 : ℚ) * 86400 + ((db : ℚ) - 1) * 86400) ∧
    fts1_datetime ye de =
      some ((toordinal ye.toNat 1 1 : ℚ) * 86400 + ((de : ℚ) - 1) * 86400) ∧
    (∀ b e : ℚ, fts1_datetime_avg b e hour = b + (e - b) / 2 + hour * 3600) ∧
    fts1_datetime 2000 1 = some ((toordinal 2000 1 1 : ℚ) * 86400) ∧
    fts1_datetime 2000 32 = some ((toordinal 2000 2 1 : ℚ) * 86400) := by
  have hgen : ∀ y d : ℤ, 1 ≤ y → y ≤ 9999 →
      fts1_datetime y d =
        some ((toordinal y.toNat 1 1 : ℚ) * 86400 + ((d : ℚ) - 1) * 86400) := by
    intro y d hy1 hy2
    unfold fts1_datetime pyDatetime
    rw [if_pos hy1, if_pos]
    · simp only [Option.map_some']
      congr 1
      unfold timedeltaDays
      push_cast
      ring
    · refine ⟨by omega, by omega, le_refl 1, by norm_num, le_refl 1, ?_,
        by norm_num, by norm_num, by norm_num, by norm_num⟩
      show 1 ≤ daysInMonth y.toNat 1
      simp [daysInMonth, monthDays]
  refine ⟨hgen yb db hyb1 hyb2, hgen ye de hye1 hye2,
    fun b e => rfl, ?_, ?_⟩
  · rw [hgen 2000 1 (by norm_num) (by norm_num)]
    have ht : (2000 : ℤ).toNat = 2000 := rfl
    rw [ht]
    norm_num
  · rw [hgen 2000 32 (by norm_num) (by norm_num)]
    have ht : (2000 : ℤ).toNat = 2000 := rfl
    have h1 : toordinal 2000 1 1 = 730120 := by decide
    have h2 : toordinal 2000 2 1 = 730151 := by decide
    rw [ht, h1, h2]
    norm_num

/-- C7 witness: the datetime theorem applied at
`(year, dayofyear) = (2000, 1)` and `(2000, 32)` with `hour = 1/2`. -/
theorem claim_c7_witness :
    fts1_datetime 2000 1 =
      some ((toordinal (2000 : ℤ).toNat 1 1 : ℚ) * 86400 + ((1 : ℚ) - 1) * 86400) ∧
    fts1_datetime 2000 32 =
      some ((toordinal (2000 : ℤ).toNat 1 1 : ℚ) * 86400 + ((32 : ℚ) - 1) * 86400) ∧
    (∀ b e : ℚ, fts1_datetime_avg b e (1 / 2) = b + (e - b) / 2 + (1 / 2) * 3600) ∧
    fts1_datetime 2000 1 = some ((toordinal 2000 1 1 : ℚ) * 86400) ∧
    fts1_datetime 2000 32 = some ((toordinal 2000 2 1 : ℚ) * 86400) :=
  claim_c7_fts1_datetimes 2000 1 2000 32 (1 / 2)
    (by norm_num) (by norm_num) (by norm_num) (by norm_num)

/-! ## Claim C2: the Bruker datetime bit extraction -/

theorem extract_bits_eq_zero (bs : List ℕ) (k : ℕ) (h : ∀ b ∈ bs, b < 256) :
    bits_2_int ((bytes_2_bits bs).take k) true = leWord bs % 2 ^ k := by
  have h0 := extract_bits_eq bs 0 k h
  rwa [List.drop_zero, Nat.shiftRight_zero] at h0

theorem floor_ratCast_nat_div (n m : ℕ) :
    ⌊((n : ℚ) / (m : ℚ))⌋ = ((n / m : ℕ) : ℤ) := by
  have h1 : ((n : ℚ) / (m : ℚ)) = (((n : ℤ) : ℚ) / ((m : ℕ) : ℚ)) := by push_cast; ring
  rw [h1, Rat.floor_intCast_div_natCast, Int.natCast_div]

/-- C2 counterexample: on the date block `[1, 0, 0, 0]` the claim's recipe
(per-byte bit order swapped during `bytes_2_bits`, then bits `[0:6)` read
as a numeral) gives day 0, while `read_bruker` (plain `bytes_2_bits`, the
swap applied inside `bits_2_int`) passes day 1 to `datetime.datetime`;
and on the time block `[0, 224, 49, 0]` (hour 12, minute 30 as stored)
the claim's hour range `[12:18)` gives 0 where the code reads the hour
from bits `[18:24)` and gets 12. -/
theorem claim_c2_counterexample :
    claim_c2_day [1, 0, 0, 0] = 0 ∧ bruker_day [1, 0, 0, 0] = 1 ∧
    ¬ claim_c2_day [1, 0, 0, 0] = bruker_day [1, 0, 0, 0] ∧
    claim_c2_hour [0, 224, 49, 0] = 0 ∧ bruker_hour [0, 224, 49, 0] = 12 ∧
    ¬ claim_c2_hour [0, 224, 49, 0] = bruker_hour [0, 224, 49, 0] := by decide

/-- C2 amended: the blocks are expanded least-significant-bit first per
byte (`bytes_2_bits` without `swap`) and every extracted bit range is read
with its first bit least significant (`bits_2_int` with `swap=True`), so
field `[a, b)` equals `(N >> a) mod 2^(b−a)` of the block's little-endian
32-bit value `N`: day `[0:6)`, month `[6:12)`, year `[12:24)` of the date
block; hour `[18:24)`, minute `[12:18)` of the time block; and bits
`[0:12)` of the time block divided by 10 give the seconds (integer part)
and microseconds (fractional part × 1e6, exact arithmetic). -/
theorem claim_c2_amended_bruker_datetime (d0 d1 d2 d3 t0 t1 t2 t3 : ℕ)
    (hd : ∀ b ∈ [d0, d1, d2, d3], b < 256)
    (ht : ∀ b ∈ [t0, t1, t2, t3], b < 256) :
    bruker_datetime [d0, d1, d2, d3] [t0, t1, t2, t3] =
      pyDatetime
        ((leWord [d0, d1, d2, d3] >>> 12) % 2 ^ 12)
        ((leWord [d0, d1, d2, d3] >>> 6) % 2 ^ 6)
        (leWord [d0, d1, d2, d3] % 2 ^ 6)
        ((leWord [t0, t1, t2, t3] >>> 18) % 2 ^ 6)
        ((leWord [t0, t1, t2, t3] >>> 12) % 2 ^ 6)
        ((leWord [t0, t1, t2, t3] % 2 ^ 12) / 10)
        ((leWord [t0, t1, t2, t3] % 2 ^ 12) % 10 * 100000) := by
  simp only [bruker_datetime, modfNonneg]
  rw [extract_bits_eq _ 12 12 hd, extract_bits_eq _ 6 6 hd,
    extract_bits_eq_zero _ 6 hd, extract_bits_eq _ 18 6 ht,
    extract_bits_eq _ 12 6 ht, extract_bits_eq_zero _ 12 ht]
  set n := leWord [t0, t1, t2, t3] % 2 ^ 12 with hn
  have hfloor : ⌊((n : ℚ) / 10)⌋ = ((n / 10 : ℕ) : ℤ) := by
    have h10 : (10 : ℚ) = ((10 : ℕ) : ℚ) := by norm_num
    rw [h10, floor_ratCast_nat_div]
  congr 1
  · rw [hfloor, Int.floor_intCast, Int.toNat_natCast]
  · have hsplit : (n : ℚ) = 10 * ((n / 10 : ℕ) : ℚ) + ((n % 10 : ℕ) : ℚ) := by
      have hdm := Nat.div_add_mod n 10
      exact_mod_cast hdm.symm
    rw [hfloor]
    have harith : ((n : ℚ) / 10 - (((n / 10 : ℕ) : ℤ) : ℚ)) * 1000000 =
        (((n % 10 : ℕ) * 100000 : ℕ) : ℚ) := by
      have hcast1 : (((n / 10 : ℕ) : ℤ) : ℚ) = ((n / 10 : ℕ) : ℚ) := by
        exact_mod_cast rfl
      have hcast2 : (((n % 10 : ℕ) * 100000 : ℕ) : ℚ) =
          ((n % 10 : ℕ) : ℚ) * 100000 := by
        exact_mod_cast rfl
      rw [hcast1, hcast2, hsplit]
      ring
    rw [harith, Int.floor_natCast, Int.toNat_natCast]

/-- C2 amended witness: the characterization applied to the concrete
blocks `[65, 0, 125, 0]` (year 2000, month 1, day 1) and
`[199, 225, 49, 0]` (12:30 and 455 tenths of a second, i.e. 45.5 s). -/
theorem claim_c2_amended_witness :
    bruker_datetime [65, 0, 125, 0] [199, 225, 49, 0] =
      pyDatetime
        ((leWord [65, 0, 125, 0] >>> 12) % 2 ^ 12)
        ((leWord [65, 0, 125, 0] >>> 6) % 2 ^ 6)
        (leWord [65, 0, 125, 0] % 2 ^ 6)
        ((leWord [199, 225, 49, 0] >>> 18) % 2 ^ 6)
        ((leWord [199, 225, 49, 0] >>> 12) % 2 ^ 6)
        ((leWord [199, 225, 49, 0] % 2 ^ 12) / 10)
        ((leWord [199, 225, 49, 0] % 2 ^ 12) % 10 * 100000) :=
  claim_c2_amended_bruker_datetime 65 0 125 0 199 225 49 0 (by decide) (by decide)

/-! ## Claim C1: the Bruker point-count mismatch -/

/-- On every Bruker header that decodes with a readable name and unequal
point counts, the check dies with `KeyError('n_points1')`: the key the
error-message construction looks up is never produced by the header
table. -/
theorem bruker_mismatch_general (f : PyFile) (spec : List (String × BVal))
    (st : PyFile) (hdr : read_bin_block f bruker_header_ffmt = .ok (spec, st))
    (bs : List ℕ) (s : String)
    (hname : List.lookup "name" spec = some (.bytes bs))
    (hdec : pyDecodeBytes bs = some s)
    (a b : BVal) (ha : List.lookup "n_points" spec = some a)
    (hb : List.lookup "n_points2" spec = some b) (hne : a ≠ b) :
    read_bruker_check f = .error (.keyError "n_points1") := by
  have hspec : spec = (ffmtKeys bruker_header_ffmt).zip
      (unpackVals (bruker_header_ffmt.map Prod.snd)
        ((f.data.drop f.pos).take (calcsize bruker_header_ffmt))) := by
    simp only [read_bin_block] at hdr
    split at hdr
    · rw [Except.ok.injEq, Prod.mk.injEq] at hdr
      exact hdr.1.symm
    · exact absurd hdr (by simp)
  have hnone : List.lookup "n_points1" spec = none := by
    rw [hspec]
    exact lookup_zip_not_mem _ _ _ (by decide)
  simp only [read_bruker_check, hdr, hname, hdec,
    dset_lookup_ne spec "name" (BVal.str (pyStrip s)) "n_points" (by decide),
    dset_lookup_ne spec "name" (BVal.str (pyStrip s)) "n_points2" (by decide),
    dset_lookup_ne spec "name" (BVal.str (pyStrip s)) "n_points1" (by decide),
    ha, hb, hnone, ne_eq, hne, not_false_eq_true, if_true]

/-- A concrete 1280-byte Bruker header image with `n_points = 100` (offset
20) and `n_points2 = 101` (offset 260), name bytes all NUL. -/
def bruker_mismatch_file : List ℕ :=
  (List.range 1280).map (fun i => if i = 20 then 100 else if i = 260 then 101 else 0)

/-- The same header image with agreeing counts (both 100). -/
def bruker_match_file : List ℕ :=
  (List.range 1280).map (fun i => if i = 20 then 100 else if i = 260 then 100 else 0)

set_option maxRecDepth 200000

/-- C1 (code bug): on the mismatching header the read does fail and
returns no result, but with `KeyError('n_points1')` — the message of the
intended validation error indexes a key the header table never produces —
instead of the `ValueError` naming the file and both counts.  On agreeing
counts the check passes, `n_points2` is popped and its value becomes
`n_points`. -/
theorem claim_c1_mismatch_keyerror :
    read_bruker_check ⟨bruker_mismatch_file, 0⟩ =
      .error (.keyError "n_points1") ∧
    ("n_points1" ∈ ffmtKeys bruker_header_ffmt) = False ∧
    (match read_bruker_check ⟨bruker_match_file, 0⟩ with
      | .ok d => some (List.lookup "n_points" d, List.lookup "n_points2" d)
      | .error _ => none) = some (some (.int 100), none) := by
  refine ⟨rfl, by simp [ffmtKeys, bruker_header_ffmt], rfl⟩

/-! ## Claim C4: the Rinsland text header example -/

/-- C4 counterexample: on the claim's example string the `name` group
requires exactly twelve `[\w.]` characters, but "sample12" is followed by
spaces, so `re.match` returns `None` and `read_str_block` dies with an
`AttributeError` instead of succeeding. -/
theorem claim_c4_counterexample :
    matchItems rinsland_header_items
      ("BRA-sample12   01 Jan 2000  100.0mK 12.0 mm Ap.ZA=30.0 S/N=100 h=10.5").toList
      = none ∧
    read_str_block_rinsland
      "BRA-sample12   01 Jan 2000  100.0mK 12.0 mm Ap.ZA=30.0 S/N=100 h=10.5" =
      .error .matchError := ⟨rfl, rfl⟩

/-- C4 amended: with the name padded to a full twelve `[\w.]` characters
("sample12.dat"), the read succeeds and yields `spec_type = "BRA"`,
`date = datetime(2000, 1, 1)` (ordinal 730120), `resolution = 100.0`, and
`sn_ratio = 100` as an integer, not a string. -/
theorem claim_c4_amended_read_str_block :
    read_str_block_rinsland
      "BRA-sample12.dat 01 Jan 2000  100.0mK 12.0 mm Ap.ZA=30.0 S/N=100 h=10.5" =
      .ok [("spec_type", .str "BRA"), ("name", .str "sample12.dat"),
           ("date", .dtime ((730120 : ℚ) * 86400)), ("resolution", .flt 100),
           ("aperture", .flt 12), ("zenith_angle", .flt 30),
           ("sn_ratio", .int 100), ("hour_avg", .flt (21 / 2))] ∧
    pyDatetime 2000 1 1 = some ((730120 : ℚ) * 86400) := by
  have hpydt : pyDatetime 2000 1 1 = some ((730120 : ℚ) * 86400) := by
    unfold pyDatetime
    rw [if_pos (by constructor <;> decide)]
    have ht : toordinal 2000 1 1 = 730120 := by decide
    rw [ht]
    norm_num
  refine ⟨?_, hpydt⟩
  have hm : matchItems rinsland_header_items
      ("BRA-sample12.dat 01 Jan 2000  100.0mK 12.0 mm Ap.ZA=30.0 S/N=100 h=10.5").toList =
      some [("spec_type", ("BRA").toList), ("name", ("sample12.dat").toList),
            ("date", ("01 Jan 2000").toList), ("resolution", ("100.0").toList),
            ("aperture", ("12.0").toList), ("zenith_angle", ("30.0").toList),
            ("sn_ratio", ("100").toList), ("hour_avg", ("10.5").toList)] := rfl
  have h1 : rinsland_convert "spec_type" (("BRA").toList) = some (.str "BRA") := rfl
  have h2 : rinsland_convert "name" (("sample12.dat").toList) =
      some (.str "sample12.dat") := rfl
  have h3 : rinsland_convert "date" (("01 Jan 2000").toList) =
      some (.dtime ((730120 : ℚ) * 86400)) := by
    have hval : strptimeDayMonYear (("01 Jan 2000").toList) = pyDatetime 2000 1 1 := rfl
    show (strptimeDayMonYear (("01 Jan 2000").toList)).map PVal.dtime = _
    rw [hval, hpydt]
    rfl
  have h4 : rinsland_convert "resolution" (("100.0").toList) = some (.flt 100) := by
    have hval : pyFloatOfChars (("100.0").toList) =
        some (((100 : ℕ) : ℚ) + ((0 : ℕ) : ℚ) / (10 : ℚ) ^ (1 : ℕ)) := rfl
    show (pyFloatOfChars (("100.0").toList)).map PVal.flt = _
    rw [hval]
    norm_num
  have h5 : rinsland_convert "aperture" (("12.0").toList) = some (.flt 12) := by
    have hval : pyFloatOfChars (("12.0").toList) =
        some (((12 : ℕ) : ℚ) + ((0 : ℕ) : ℚ) / (10 : ℚ) ^ (1 : ℕ)) := rfl
    show (pyFloatOfChars (("12.0").toList)).map PVal.flt = _
    rw [hval]
    norm_num
  have h6 : rinsland_convert "zenith_angle" (("30.0").toList) = some (.flt 30) := by
    have hval : pyFloatOfChars (("30.0").toList) =
        some (((30 : ℕ) : ℚ) + ((0 : ℕ) : ℚ) / (10 : ℚ) ^ (1 : ℕ)) := rfl
    show (pyFloatOfChars (("30.0").toList)).map PVal.flt = _
    rw [hval]
    norm_num
  have h7 : rinsland_convert "sn_ratio" (("100").toList) = some (.int 100) := rfl
  have h8 : rinsland_convert "hour_avg" (("10.5").toList) = some (.flt (21 / 2)) := by
    have hval : pyFloatOfChars (("10.5").toList) =
        some (((10 : ℕ) : ℚ) + ((5 : ℕ) : ℚ) / (10 : ℚ) ^ (1 : ℕ)) := rfl
    show (pyFloatOfChars (("10.5").toList)).map PVal.flt = _
    rw [hval]
    norm_num
  simp only [read_str_block_rinsland, hm, convFields, h1, h2, h3, h4, h5, h6, h7, h8]

/-! ## Claim C6: SPEC record pairing and consumption -/

/-- The decoded SPEC record block at absolute byte offset `p`. -/
def spec_record_at (data : List ℕ) (p : ℕ) : List (String × BVal) :=
  (ffmtKeys spec_record_ffmt).zip
    (unpackVals (spec_record_ffmt.map Prod.snd) ((data.drop p).take 128))

/-- The decoded SPEC header block. -/
def spec_header_dict (data : List ℕ) : List (String × BVal) :=
  (ffmtKeys spec_header_ffmt).zip
    (unpackVals (spec_header_ffmt.map Prod.snd) (data.take 128))

theorem spec_read_records_ok (n : ℕ) (f : PyFile)
    (h : f.pos + 256 * n ≤ f.data.length) :
    spec_read_records n f =
      .ok ((List.range n).map
             (fun i => spec_record_at f.data (f.pos + 128 * (2 * i + 1))),
           ⟨f.data, f.pos + 256 * n⟩) := by
  induction n generalizing f with
  | zero => simp [spec_read_records]
  | succ n ih =>
    have hcalc : calcsize spec_record_ffmt = 128 := by decide
    have h1 : f.pos + calcsize spec_record_ffmt ≤ f.data.length := by
      rw [hcalc]; omega
    have h2 : (PyFile.mk f.data (f.pos + calcsize spec_record_ffmt)).pos
        + calcsize spec_record_ffmt ≤
        (PyFile.mk f.data (f.pos + calcsize spec_record_ffmt)).data.length := by
      simp only [hcalc]; omega
    have h3 : (PyFile.mk f.data (f.pos + calcsize spec_record_ffmt
        + calcsize spec_record_ffmt)).pos + 256 * n ≤
        (PyFile.mk f.data (f.pos + calcsize spec_record_ffmt
          + calcsize spec_record_ffmt)).data.length := by
      simp only [hcalc]; omega
    simp only [spec_read_records, read_bin_block_ok f spec_record_ffmt h1,
      read_bin_block_ok _ _ h2, ih _ h3]
    rw [Except.ok.injEq, Prod.mk.injEq, PyFile.mk.injEq]
    refine ⟨?_, rfl, by rw [hcalc]; omega⟩
    rw [List.range_succ_eq_map, List.map_cons, List.map_map, hcalc]
    congr 1
    apply List.map_congr_left
    intro i _
    show spec_record_at f.data (f.pos + 128 + 128 + 128 * (2 * i + 1)) =
      spec_record_at f.data (f.pos + 128 * (2 * (i + 1) + 1))
    congr 1
    ring

/-- C6 amended: after the 128-byte header block (4 + 4×20 + 44 padding —
not 84 bytes), a SPEC file with `n_records = n` has exactly `2 n`
fixed-size 128-byte records consumed and `n` records returned, each being
the second of its pair (the record at byte offset
`128 + 128·(2 i + 1)`). -/
theorem claim_c6_amended_read_spec (data : List ℕ) (n : ℕ)
    (hn : List.lookup "n_records" (spec_header_dict data) = some (.int (n : ℤ)))
    (hlen : 128 + 256 * n ≤ data.length) :
    read_spec_raw ⟨data, 0⟩ =
      .ok (spec_header_dict data,
           (List.range n).map (fun i => spec_record_at data (128 + 128 * (2 * i + 1))),
           ⟨data, 128 + 256 * n⟩) := by
  have hcalcH : calcsize spec_header_ffmt = 128 := by decide
  have hH : (PyFile.mk data 0).pos + calcsize spec_header_ffmt ≤
      (PyFile.mk data 0).data.length := by
    simp only [hcalcH]; omega
  have hhd : (ffmtKeys spec_header_ffmt).zip
      (unpackVals (spec_header_ffmt.map Prod.snd)
        (((PyFile.mk data 0).data.drop (PyFile.mk data 0).pos).take
          (calcsize spec_header_ffmt))) = spec_header_dict data := by
    rw [List.drop_zero, hcalcH]
    rfl
  have hloop : (PyFile.mk data (0 + calcsize spec_header_ffmt)).pos + 256 * n ≤
      (PyFile.mk data (0 + calcsize spec_header_ffmt)).data.length := by
    simp only [hcalcH]; omega
  simp only [read_spec_raw, read_bin_block_ok ⟨data, 0⟩ spec_header_ffmt hH, hhd,
    hn, Int.toNat_natCast, spec_read_records_ok n _ hloop]
  rw [Except.ok.injEq, Prod.mk.injEq, Prod.mk.injEq, PyFile.mk.injEq]
  exact ⟨rfl, List.map_congr_left (fun i _ => by rw [hcalcH]), rfl, by rw [hcalcH]⟩

/-- C6 counterexample: the claim places the records "after the 84-byte
header", but the header block of `read_spec` is 128 bytes
(4 + 4×20 + 44 padding): reading it advances the cursor to 128, not
84. -/
theorem claim_c6_counterexample :
    (match read_bin_block ⟨List.replicate 384 0, 0⟩ spec_header_ffmt with
      | .ok r => some r.2.pos
      | .error _ => none) = some 128 ∧
    calcsize spec_header_ffmt = 128 ∧ ¬ calcsize spec_header_ffmt = 84 :=
  ⟨rfl, by decide, by decide⟩

/-- A concrete 384-byte SPEC file: `n_records = 1` and varied record
content. -/
def spec_c6_file : List ℕ :=
  (List.range 384).map (fun i => if i = 0 then 1 else if i < 4 then 0 else i % 256)

/-- C6 witness: the consumption theorem applied to the concrete file
declaring one record: the loop consumes two 128-byte records (cursor ends
at 384 = 128 + 256) and returns the single record decoded at offset
256. -/
theorem claim_c6_witness :
    read_spec_raw ⟨spec_c6_file, 0⟩ =
      .ok (spec_header_dict spec_c6_file,
           (List.range 1).map
             (fun i => spec_record_at spec_c6_file (128 + 128 * (2 * i + 1))),
           ⟨spec_c6_file, 128 + 256 * 1⟩) :=
  claim_c6_amended_read_spec spec_c6_file 1 rfl (by decide)

end Spector
